import Mathlib

/-
Verification of the code-push management client (adapter layer, account-manager facade).

Shallow embedding notes:
- JavaScript strings are Lean `String`s; character-level algorithms (split, replace,
  regex tests) work on `String.data` (the list of characters).
- Network effects are modeled by threading an explicit `Backend` environment (the
  responses the request manager would produce) and a request log (`List String`) that
  records each HTTP request issued, in order.  A function "performs no network call"
  iff it returns the log unchanged.
- Fallible operations return `Except CodePushError α` mirroring promise rejection
  with a normalized `{message, statusCode}` error.
- Host APIs that are not part of this repository are parameters: `Date.parse` is an
  explicit `dateParse : String → Option Int` argument (`none` models `NaN`), and
  `String.prototype.localeCompare` is modeled as code-point lexicographic comparison.
-/

/-- Normalized error shape `{message, statusCode}` from `src/script/types` usage. -/
structure CodePushError where
  message : String
  statusCode : Nat
deriving Repr, DecidableEq

namespace RequestManager

/-- Error code constants from `request-manager.ts`. -/
def ERROR_GATEWAY_TIMEOUT : Nat := 504

def ERROR_INTERNAL_SERVER : Nat := 500

def ERROR_NOT_FOUND : Nat := 404

def ERROR_CONFLICT : Nat := 409

def ERROR_UNAUTHORIZED : Nat := 401

end RequestManager

/-- JavaScript `String.prototype.includes(c)` for a one-character search string. -/
def jsIncludesChar (s : String) (c : Char) : Bool :=
  s.data.contains c

/-- JavaScript `String.prototype.split(sep)` for a one-character separator, on the
character list. `"".split(sep)` is `[""]`; `"a/".split("/")` is `["a", ""]`. -/
def jsSplit (sep : Char) : List Char → List (List Char)
  | [] => [[]]
  | c :: rest =>
    if c = sep then
      [] :: jsSplit sep rest
    else
      match jsSplit sep rest with
      | [] => [[c]]
      | seg :: segs => (c :: seg) :: segs

/-- JavaScript `String.prototype.split(sep)` at the `String` level. -/
def jsSplitStr (sep : Char) (s : String) : List String :=
  (jsSplit sep s.data).map String.mk

/-- JavaScript `String.prototype.replace(pat, repl)` with a one-character string
pattern: only the FIRST occurrence is replaced. -/
def jsReplaceFirst (sep : Char) (repl : List Char) : List Char → List Char
  | [] => []
  | c :: rest =>
    if c = sep then repl ++ rest else c :: jsReplaceFirst sep repl rest

theorem jsSplit_ne_nil (sep : Char) (s : List Char) : jsSplit sep s ≠ [] := by
  cases s with
  | nil => simp [jsSplit]
  | cons c rest =>
    simp only [jsSplit]
    by_cases h : c = sep
    · simp [h]
    · simp only [h, if_false]
      cases jsSplit sep rest with
      | nil => simp
      | cons seg segs => simp

theorem jsSplit_cons_of_not_mem (sep : Char) (pre rest : List Char) (h : sep ∉ pre) :
    jsSplit sep (pre ++ sep :: rest) = pre :: jsSplit sep rest := by
  induction pre with
  | nil => simp [jsSplit]
  | cons c pre ih =>
    have hc : ¬ (c = sep) := fun hh => h (hh ▸ List.mem_cons_self c pre)
    have hpre : sep ∉ pre := fun hh => h (List.mem_cons_of_mem c hh)
    simp only [List.cons_append, jsSplit, hc, if_false, List.append_eq, ih hpre]

theorem jsSplit_headD (sep : Char) (s : List Char) :
    (jsSplit sep s).headD [] = s.takeWhile (fun c => c != sep) := by
  induction s with
  | nil => simp [jsSplit]
  | cons c rest ih =>
    simp only [jsSplit, List.takeWhile_cons]
    by_cases h : c = sep
    · simp [h]
    · simp only [h, if_false, bne_iff_ne, ne_eq, not_false_eq_true, if_true]
      have hne := jsSplit_ne_nil sep rest
      cases hs : jsSplit sep rest with
      | nil => exact absurd hs hne
      | cons seg segs =>
        simp only [hs, List.headD_cons] at ih
        simp [ih, h]

theorem jsReplaceFirst_append (sep : Char) (repl pre rest : List Char) (h : sep ∉ pre) :
    jsReplaceFirst sep repl (pre ++ sep :: rest) = pre ++ repl ++ rest := by
  induction pre with
  | nil => simp [jsReplaceFirst]
  | cons c pre ih =>
    have hc : ¬ (c = sep) := fun hh => h (hh ▸ List.mem_cons_self c pre)
    have hpre : sep ∉ pre := fun hh => h (List.mem_cons_of_mem c hh)
    simp [jsReplaceFirst, hc, ih hpre]

/-- Code-point lexicographic "less or equal" on character lists; the model of the
default behavior of `localeCompare(...) <= 0` used by the sorting adapters. -/
def charListLe : List Char → List Char → Bool
  | [], _ => true
  | _ :: _, [] => false
  | a :: as, b :: bs =>
    if a.toNat < b.toNat then true
    else if b.toNat < a.toNat then false
    else charListLe as bs

theorem charListLe_total (x y : List Char) : (charListLe x y || charListLe y x) = true := by
  induction x generalizing y with
  | nil => simp [charListLe]
  | cons a as ih =>
    cases y with
    | nil => simp [charListLe]
    | cons b bs =>
      simp only [charListLe]
      rcases Nat.lt_trichotomy a.toNat b.toNat with h | h | h
      · simp [h]
      · simp [h, Nat.lt_irrefl, ih bs]
      · simp [h, Nat.lt_asymm h]

theorem charListLe_trans (x y z : List Char) (h1 : charListLe x y = true)
    (h2 : charListLe y z = true) : charListLe x z = true := by
  induction x generalizing y z with
  | nil => simp [charListLe]
  | cons a as ih =>
    cases y with
    | nil => simp [charListLe] at h1
    | cons b bs =>
      cases z with
      | nil => simp [charListLe] at h2
      | cons c cs =>
        simp only [charListLe] at h1 h2 ⊢
        rcases Nat.lt_trichotomy a.toNat b.toNat with hab | hab | hab
        · rcases Nat.lt_trichotomy b.toNat c.toNat with hbc | hbc | hbc
          · simp [Nat.lt_trans hab hbc]
          · simp [hbc ▸ hab]
          · simp only [hbc, if_neg (Nat.lt_asymm hbc), if_pos] at h2
            exact absurd h2 (by simp)
        · rcases Nat.lt_trichotomy b.toNat c.toNat with hbc | hbc | hbc
          · simp [hab ▸ hbc]
          · have hac : a.toNat = c.toNat := hab.trans hbc
            simp only [hab, Nat.lt_irrefl, if_false] at h1
            simp only [hbc, Nat.lt_irrefl, if_false] at h2
            simp only [hac, Nat.lt_irrefl, if_false]
            exact ih bs cs h1 h2
          · simp only [if_neg (Nat.lt_asymm hbc), if_pos hbc] at h2
            exact absurd h2 (by simp)
        · simp only [if_neg (Nat.lt_asymm hab), if_pos hab] at h1
          exact absurd h1 (by simp)

instance {ε α : Type} [DecidableEq ε] [DecidableEq α] : DecidableEq (Except ε α) := by
  intro a b
  cases a with
  | error e =>
    cases b with
    | error f => exact decidable_of_iff (e = f) (by simp)
    | ok _ => exact isFalse (by simp)
  | ok x =>
    cases b with
    | error _ => exact isFalse (by simp)
    | ok y => exact decidable_of_iff (x = y) (by simp)

/-- Backend user profile (`adapter-types.ts` UserProfile, fields the adapter reads). -/
structure UserProfile where
  id : String
  name : String
  email : String
deriving Repr, DecidableEq

/-- Owner object on a backend app (`app.owner.id`, `app.owner.name`). -/
structure AppOwner where
  id : String
  name : String
deriving Repr, DecidableEq

/-- Backend app (`adapter-types.ts` App, fields read by `adapter.ts`). -/
structure BackendApp where
  name : String
  display_name : String
  owner : AppOwner
  os : String
  platform : String
deriving Repr, DecidableEq

/-- Result of `parseApiAppName` (`adapter-types.ts` appParams). -/
structure AppParams where
  appOwner : String
  appName : String
deriving Repr, DecidableEq

/-- Payload of `getRenamedApp` (`adapter-types.ts` UpdatedApp): `display_name` is
present only when the old name equaled the old display name. -/
structure UpdatedApp where
  name : String
  display_name : Option String
deriving Repr, DecidableEq

/-- Response body of the current-user lookup as `isAuthenticated` sees it: `body` is
`none` when no response body was parsed. -/
structure UserJsonResponse where
  body : Option UserProfile
deriving Repr, DecidableEq

/-- The responses the request manager would deliver for each backend endpoint used by
the functions under verification; an `Except.error` models promise rejection. -/
structure Backend where
  userResult : Except CodePushError UserProfile
  appResult : Except CodePushError BackendApp
  userGetResult : Except CodePushError UserJsonResponse
deriving Repr, DecidableEq

namespace Adapter

/-- `Adapter.getUser` (`adapter.ts`): awaits `GET /user` and returns the body; a
rejection is rethrown unchanged.  The request log records the call. -/
def getUser (env : Backend) (log : List String) :
    Except CodePushError UserProfile × List String :=
  (env.userResult, log ++ ["GET /user"])

/-- `Adapter.getApp` (`adapter.ts`): awaits `GET /apps/{owner}/{name}`; a rejection is
rethrown unchanged.  The request log records the call. -/
def getApp (appOwner appName : String) (env : Backend) (log : List String) :
    Except CodePushError BackendApp × List String :=
  (env.appResult, log ++ ["GET /apps/" ++ appOwner ++ "/" ++ appName])

/-- `Adapter.parseApiAppName` (`adapter.ts` lines 205-219): awaits `getUser()` FIRST,
unconditionally; if the name has no `/` the calling user is the owner; otherwise the
result of `apiAppName.split("/")` is destructured as `[appOwner, appName]` (so
`appName` is the second segment only). -/
def parseApiAppName (apiAppName : String) (env : Backend) (log : List String) :
    Except CodePushError AppParams × List String :=
  match getUser env log with
  | (.error e, log1) => (.error e, log1)
  | (.ok callingUser, log1) =>
    if !(jsIncludesChar apiAppName '/') then
      (.ok { appOwner := callingUser.name, appName := apiAppName }, log1)
    else
      let parts := jsSplitStr '/' apiAppName
      (.ok { appOwner := parts.getD 0 "", appName := parts.getD 1 "" }, log1)

/-- JS truthiness of an optional string field: absent, null and `""` are falsy. -/
def truthyStr : Option String → Bool
  | none => false
  | some s => !(s == "")

/-- JS truthiness of an optional numeric field: absent, null and `0` are falsy. -/
def truthyInt : Option Int → Bool
  | none => false
  | some n => !(n == 0)

/-- JS double negation `!!x` of an optional boolean field. -/
def truthyBool : Option Bool → Bool
  | none => false
  | some b => b

/-- `getStringValidator` (`adapter.ts`): the returned check, restricted to string
inputs (the `typeof` guard always passes in this embedding). -/
def getStringValidator (maxLength minLength : Nat) (value : String) : Bool :=
  if 0 < maxLength && maxLength < value.length then false
  else minLength ≤ value.length

/-- Character class of the regex `[a-zA-Z0-9-._]`. -/
def appNameChar (c : Char) : Bool :=
  c.isAlpha || c.isDigit || c == '-' || c == '.' || c == '_'

/-- The regex test `/^[a-zA-Z0-9-._]+$/.test(name)`. -/
def appNameRegexTest (name : String) : Bool :=
  !name.data.isEmpty && name.data.all appNameChar

/-- `Adapter.isValidAppCenterAppName` (`adapter.ts`): length between 1 and 1000 and
only alphanumeric characters, dashes, periods, or underscores. -/
def isValidAppCenterAppName (name : String) : Bool :=
  getStringValidator 1000 1 name && appNameRegexTest name

/-- Conflict message thrown by `getRenamedApp` for a qualified new name. -/
def newNameQualifiedMessage (newName : String) : String :=
  "The new app name \"" ++ newName ++ "\" must be unqualified, not having a \x27/\x27 character."

/-- Conflict message thrown for an invalid app name. -/
def invalidAppNameMessage (name : String) : String :=
  "The app name \"" ++ name ++ "\" isn\x27t valid. It can only contain alphanumeric characters, dashes, periods, or underscores."

/-- Conflict message thrown for an invalid app OS. -/
def invalidOsMessage (os : String) : String :=
  "The app OS \"" ++ os ++ "\" isn\x27t valid. It should be \"iOS\", \"Android\", \"Windows\" or \"Linux\"."

/-- Conflict message thrown for an invalid app platform. -/
def invalidPlatformMessage (platform : String) : String :=
  "The app platform \"" ++ platform ++ "\" isn\x27t valid. It should be \"React-Native\", \"Cordova\" or \"Electron\"."

/-- `Adapter.getRenamedApp` (`adapter.ts` lines 125-148): fetches the existing app
FIRST, then validates the new name (embedded `/`, then general name validity), then
builds the update payload; `display_name` is renamed along with `name` exactly when
the two were equal on the existing app. -/
def getRenamedApp (newName appOwner oldName : String) (env : Backend) (log : List String) :
    Except CodePushError UpdatedApp × List String :=
  match getApp appOwner oldName env log with
  | (.error e, log1) => (.error e, log1)
  | (.ok app, log1) =>
    if jsIncludesChar newName '/' then
      (.error { message := newNameQualifiedMessage newName,
                statusCode := RequestManager.ERROR_CONFLICT }, log1)
    else if !(isValidAppCenterAppName newName) then
      (.error { message := invalidAppNameMessage newName,
                statusCode := RequestManager.ERROR_CONFLICT }, log1)
    else if app.name == app.display_name then
      (.ok { name := newName, display_name := some newName }, log1)
    else
      (.ok { name := newName, display_name := none }, log1)

end Adapter

/-- Backend release (`adapter-types.ts` CodePushRelease, fields read by
`releaseToPackage`); optional fields are `Option`s, `none` covering both `undefined`
and `null`.  `diff_package_map` is kept opaque (any present object is truthy). -/
structure CodePushRelease where
  target_binary_range : Option String
  blob_url : String
  size : Int
  upload_time : Int
  is_disabled : Option Bool
  is_mandatory : Option Bool
  description : Option String
  label : Option String
  package_hash : Option String
  rollout : Option Int
  diff_package_map : Option String
  original_label : Option String
  original_deployment : Option String
  released_by : Option String
  release_method : Option String
deriving Repr, DecidableEq

/-- Client package (`script/types` Package); a `none` field models a property that
was never assigned (absent, not null). -/
structure Package where
  appVersion : Option String
  blobUrl : String
  size : Int
  uploadTime : Int
  isDisabled : Bool
  isMandatory : Bool
  description : Option String
  label : Option String
  packageHash : Option String
  rollout : Option Int
  diffPackageMap : Option String
  originalLabel : Option String
  originalDeployment : Option String
  releasedBy : Option String
  releaseMethod : Option String
deriving Repr, DecidableEq

/-- Backend deployment (`adapter-types.ts` Deployment, fields read by the adapter). -/
structure BackendDeployment where
  name : String
  key : String
  latest_release : Option CodePushRelease
deriving Repr, DecidableEq

/-- Client deployment (`script/types` Deployment). -/
structure Deployment where
  name : String
  key : String
  package : Option Package
deriving Repr, DecidableEq

namespace Adapter

/-- Keep an optional string field only when truthy (mirrors `if (x) target.f = x`). -/
def keepStr (v : Option String) : Option String :=
  if truthyStr v then v else none

/-- Keep an optional numeric field only when truthy (mirrors `if (x) target.f = x`). -/
def keepInt (v : Option Int) : Option Int :=
  if truthyInt v then v else none

/-- Keep an optional object field only when present (objects are truthy). -/
def keepObj (v : Option String) : Option String :=
  if v.isSome then v else none

/-- `Adapter.releaseToPackage` (`adapter.ts` lines 291-321): unconditional fields are
copied (`is_disabled`/`is_mandatory` through `!!`), every other field is assigned
only when the backend value is truthy; in particular an absent/null/zero `rollout`
leaves `rollout` absent — it is NOT defaulted to 100. -/
def releaseToPackage (releasePackage : CodePushRelease) : Package :=
  { blobUrl := releasePackage.blob_url
    size := releasePackage.size
    uploadTime := releasePackage.upload_time
    isDisabled := truthyBool releasePackage.is_disabled
    isMandatory := truthyBool releasePackage.is_mandatory
    appVersion := keepStr releasePackage.target_binary_range
    description := keepStr releasePackage.description
    label := keepStr releasePackage.label
    packageHash := keepStr releasePackage.package_hash
    rollout := keepInt releasePackage.rollout
    diffPackageMap := keepObj releasePackage.diff_package_map
    originalLabel := keepStr releasePackage.original_label
    originalDeployment := keepStr releasePackage.original_deployment
    releasedBy := keepStr releasePackage.released_by
    releaseMethod := keepStr releasePackage.release_method }

/-- `Adapter.toLegacyRestDeployment` (`adapter.ts` lines 331-341): `package` is the
mapped `latest_release`, or null when there is none. -/
def toLegacyRestDeployment (deployment : BackendDeployment) : Deployment :=
  { name := deployment.name
    key := deployment.key
    package :=
      match deployment.latest_release with
      | some r => some (releaseToPackage r)
      | none => none }

/-- The spec name `releaseFromBackend`: `releaseToPackage` together with the null
guard of `toLegacyRestDeployment` (null passes through). -/
def releaseFromBackend (release : Option CodePushRelease) : Option Package :=
  match release with
  | some r => some (releaseToPackage r)
  | none => none

/-- The comparator of `toLegacyDeployments`:
`first.name.localeCompare(second.name) <= 0`. -/
def deploymentLe (first second : BackendDeployment) : Bool :=
  charListLe first.name.data second.name.data

/-- `Adapter.toLegacyDeployments` (`adapter.ts` lines 163-169): sorts the backend
deployments by `name.localeCompare` and then maps each through
`toLegacyRestDeployment` (the sort is the stable `Array.prototype.sort`). -/
def toLegacyDeployments (deployments : List BackendDeployment) : List Deployment :=
  (deployments.mergeSort deploymentLe).map toLegacyRestDeployment

end Adapter

/-- Collaborator entry (`script/types` CollaboratorProperties). -/
structure CollaboratorProperties where
  isCurrentAccount : Bool
  permission : String
deriving Repr, DecidableEq

/-- Client app (`script/types` App); the collaborator map of `toLegacyRestApp` always
has exactly one entry, kept here as an association list. -/
structure App where
  name : String
  collaborators : List (String × CollaboratorProperties)
  deployments : List String
  os : String
  platform : String
deriving Repr, DecidableEq

namespace Adapter

/-- `Adapter.toLegacyRestApp` (`adapter.ts` lines 225-250): prefixes `owner/` when the
current user is not the owner, appends two spaces and `(display_name)` when the
display name differs from the name, and emits a single Owner collaborator entry. -/
def toLegacyRestApp (app : BackendApp) (user : UserProfile) (deployments : List String) : App :=
  let isCurrentAccount : Bool := user.id == app.owner.id
  let isNameAndDisplayNameSame : Bool := app.name == app.display_name
  let appName1 : String :=
    if !isCurrentAccount then app.owner.name ++ "/" ++ app.name else app.name
  let appName2 : String :=
    if !isNameAndDisplayNameSame then appName1 ++ "  (" ++ app.display_name ++ ")" else appName1
  { name := appName2
    collaborators := [(app.owner.name,
      { isCurrentAccount := user.id == app.owner.id, permission := "Owner" })]
    deployments := deployments
    os := app.os
    platform := app.platform }

end Adapter

/-- Backend api token in list responses (`adapter-types.ts` ApiTokensGetResponse). -/
structure ApiTokensGetResponse where
  id : String
  description : String
  created_at : String
deriving Repr, DecidableEq

/-- Client access key (`script/types` AccessKey): `createdTime`/`expires` come from
`Date.parse` (`none` models `NaN`); `key` is the secret, absent in list form. -/
structure AccessKey where
  createdTime : Option Int
  expires : Option Int
  name : String
  key : Option String
deriving Repr, DecidableEq

namespace Adapter

/-- The far-future sentinel date string used for `expires`. -/
def neverExpires : String := "9999-12-31T23:59:59"

/-- The per-token mapping inside `toLegacyAccessKeyList`: no `key` field is set. -/
def accessKeyOfToken (dateParse : String → Option Int) (apiToken : ApiTokensGetResponse) :
    AccessKey :=
  { createdTime := dateParse apiToken.created_at
    expires := dateParse neverExpires
    name := apiToken.description
    key := none }

/-- The sort key of the comparator in `toLegacyAccessKeyList`:
`first.createdTime || 0`, so a missing/unparseable time counts as 0. -/
def sortKey (k : AccessKey) : Int :=
  match k.createdTime with
  | none => 0
  | some v => v

/-- The comparator of `toLegacyAccessKeyList`: the source returns
`(first.createdTime || 0) - (second.createdTime || 0)`, so `first` sorts no later
than `second` exactly when that difference is `<= 0`. -/
def accessKeyLe (first second : AccessKey) : Bool :=
  decide (sortKey first ≤ sortKey second)

/-- `Adapter.toLegacyAccessKeyList` (`adapter.ts` lines 27-48): maps every token to an
`AccessKey` without the secret, then sorts ascending by `createdTime || 0` with the
stable `Array.prototype.sort`. -/
def toLegacyAccessKeyList (dateParse : String → Option Int)
    (apiTokens : List ApiTokensGetResponse) : List AccessKey :=
  let accessKeyList := apiTokens.map (accessKeyOfToken dateParse)
  accessKeyList.mergeSort accessKeyLe

end Adapter

/-- Client app-creation request (`script/types` AppCreationRequest). -/
structure AppCreationRequest where
  name : String
  os : String
  platform : String
  manuallyProvisionDeployments : Bool
deriving Repr, DecidableEq

/-- App payload built by `toAppcenterClientApp` (only os, platform, display_name). -/
structure AppcenterClientApp where
  os : String
  platform : String
  display_name : String
deriving Repr, DecidableEq

/-- `adapter-types.ts` ApigatewayAppCreationRequest: optional org plus app payload. -/
structure ApigatewayAppCreationRequest where
  org : Option String
  appcenterClientApp : AppcenterClientApp
deriving Repr, DecidableEq

namespace Adapter

/-- The os check of `toApigatewayAppCreationRequest`: os must be one of iOS, Android,
Windows, Linux (source tests the negation with `!==` chains). -/
def osValid (appToCreate : AppCreationRequest) : Bool :=
  appToCreate.os == "iOS" || appToCreate.os == "Android" ||
  appToCreate.os == "Windows" || appToCreate.os == "Linux"

/-- The platform check of `toApigatewayAppCreationRequest`: platform must be one of
React-Native, Cordova, Electron. -/
def platformValid (appToCreate : AppCreationRequest) : Bool :=
  appToCreate.platform == "React-Native" || appToCreate.platform == "Cordova" ||
  appToCreate.platform == "Electron"

/-- `Adapter.getOrgFromLegacyAppRequest` (`adapter.ts`): the text before the first `/`
when one is present (`name.substring(0, name.indexOf('/'))`), else null. -/
def getOrgFromLegacyAppRequest (legacyCreateAppRequest : AppCreationRequest) : Option String :=
  if jsIncludesChar legacyCreateAppRequest.name '/' then
    some (String.mk (legacyCreateAppRequest.name.data.takeWhile (fun c => c != '/')))
  else
    none

/-- `Adapter.toAppcenterClientApp` (`adapter.ts`): `display_name` is everything after
the first `/` (`name.substring(slashIndex + 1)`) when a `/` is present, else the name. -/
def toAppcenterClientApp (legacyCreateAppRequest : AppCreationRequest) : AppcenterClientApp :=
  { os := legacyCreateAppRequest.os
    platform := legacyCreateAppRequest.platform
    display_name :=
      if jsIncludesChar legacyCreateAppRequest.name '/' then
        String.mk ((legacyCreateAppRequest.name.data.dropWhile (fun c => c != '/')).drop 1)
      else
        legacyCreateAppRequest.name }

/-- `Adapter.toApigatewayAppCreationRequest` (`adapter.ts` lines 84-110): validates
os, then platform, then the derived display name; every violation throws a Conflict
(409) error; on success returns the org and the app payload. -/
def toApigatewayAppCreationRequest (appToCreate : AppCreationRequest) :
    Except CodePushError ApigatewayAppCreationRequest :=
  if !(osValid appToCreate) then
    .error { message := invalidOsMessage appToCreate.os,
             statusCode := RequestManager.ERROR_CONFLICT }
  else if !(platformValid appToCreate) then
    .error { message := invalidPlatformMessage appToCreate.platform,
             statusCode := RequestManager.ERROR_CONFLICT }
  else
    let org := getOrgFromLegacyAppRequest appToCreate
    let appcenterClientApp := toAppcenterClientApp appToCreate
    if !(isValidAppCenterAppName appcenterClientApp.display_name) then
      .error { message := invalidAppNameMessage appcenterClientApp.display_name,
               statusCode := RequestManager.ERROR_CONFLICT }
    else
      .ok { org := org, appcenterClientApp := appcenterClientApp }

end Adapter

/-- Status code of a failed result, `none` on success. -/
def errStatus {α : Type} : Except CodePushError α → Option Nat
  | .error e => some e.statusCode
  | .ok _ => none

namespace AccountManager

/-- `AccountManager.isAuthenticated` (`management-sdk.ts` lines 66-71): awaits
`this._requestManager.get(urlEncode`/user`, false, throwIfUnauthorized)` and returns
`!!res.body`.  `RequestManager.get` takes only `(endpoint, expectResponseBody)`
(`request-manager.ts` lines 36-38), so the third argument is silently dropped and
there is no try/catch: every rejection, including a 401, propagates unchanged. -/
def isAuthenticated (_throwIfUnauthorized : Bool) (env : Backend) (log : List String) :
    Except CodePushError Bool × List String :=
  let log1 := log ++ ["GET /user"]
  match env.userGetResult with
  | .error e => (.error e, log1)
  | .ok res => (.ok res.body.isSome, log1)

/-- `AccountManager.getAccessKey` (`management-sdk.ts` lines 87-93, marked
Deprecated): throws the fixed error synchronously; no request is issued. -/
def getAccessKey (_accessKeyName : String) (_env : Backend) (log : List String) :
    Except CodePushError Unit × List String :=
  (.error { message := "Method is deprecated", statusCode := 404 }, log)

/-- `AccountManager.getSessions` (`management-sdk.ts` lines 101-107, marked
Deprecated): throws the fixed error synchronously; no request is issued. -/
def getSessions (_env : Backend) (log : List String) :
    Except CodePushError Unit × List String :=
  (.error { message := "Method is deprecated", statusCode := 404 }, log)

/-- `AccountManager.patchAccessKey` (`management-sdk.ts` lines 109-115, marked
Deprecated): throws the fixed error synchronously; no request is issued. -/
def patchAccessKey (_oldName : String) (_newName : Option String) (_ttl : Option Int)
    (_env : Backend) (log : List String) : Except CodePushError Unit × List String :=
  (.error { message := "Method is deprecated", statusCode := 404 }, log)

/-- `AccountManager.removeSession` (`management-sdk.ts` lines 122-128, marked
Deprecated): throws the fixed error synchronously; no request is issued. -/
def removeSession (_machineName : String) (_env : Backend) (log : List String) :
    Except CodePushError Unit × List String :=
  (.error { message := "Method is deprecated", statusCode := 404 }, log)

/-- `AccountManager.appNameParam` (`management-sdk.ts` lines 390-392):
`appName.replace("/", "~~")` — a string pattern, so only the FIRST `/` is replaced. -/
def appNameParam (appName : String) : String :=
  String.mk (jsReplaceFirst '/' ['~', '~'] appName.data)

end AccountManager

/-- Concrete fixtures used by counterexamples and witnesses. -/
def userX : UserProfile := { id := "u1", name := "me", email := "me@example.com" }

def appX : BackendApp :=
  { name := "old", display_name := "old", owner := { id := "u1", name := "me" },
    os := "iOS", platform := "Cordova" }

def env0 : Backend :=
  { userResult := .ok userX
    appResult := .ok appX
    userGetResult := .ok { body := some userX } }

def env401 : Backend :=
  { env0 with userGetResult := .error { message := "Unauthorized", statusCode := 401 } }

/-- Appending the empty string is the identity. -/
theorem string_append_empty (s : String) : s ++ "" = s := by
  apply String.ext
  simp [String.data_append]

/-- String concatenation is associative. -/
theorem string_append_assoc (a b c : String) : a ++ b ++ c = a ++ (b ++ c) := by
  apply String.ext
  simp [String.data_append]

/-- C9: for every input, each deprecated operation of the facade (getAccessKey,
getSessions, patchAccessKey, removeSession) fails with the fixed error
`{message: "Method is deprecated", statusCode: 404}` and leaves the request log
unchanged — no network call is performed. -/
theorem deprecated_methods_fixed_error (accessKeyName oldName machineName : String)
    (newName : Option String) (ttl : Option Int) (env : Backend) (log : List String) :
    AccountManager.getAccessKey accessKeyName env log =
      (.error { message := "Method is deprecated", statusCode := 404 }, log) ∧
    AccountManager.getSessions env log =
      (.error { message := "Method is deprecated", statusCode := 404 }, log) ∧
    AccountManager.patchAccessKey oldName newName ttl env log =
      (.error { message := "Method is deprecated", statusCode := 404 }, log) ∧
    AccountManager.removeSession machineName env log =
      (.error { message := "Method is deprecated", statusCode := 404 }, log) :=
  ⟨rfl, rfl, rfl, rfl⟩

/-- C10: `appNameParam` replaces only the first `/`: for any app name decomposed as
`pre ++ "/" ++ rest` with no `/` in `pre`, the result is `pre ++ "~~" ++ rest`, so
every `/` inside `rest` is left unencoded. -/
theorem appNameParam_replaces_first_slash_only (pre rest : String)
    (h : ('/' : Char) ∉ pre.data) :
    AccountManager.appNameParam (pre ++ "/" ++ rest) = pre ++ "~~" ++ rest := by
  apply String.ext
  have hdata : (pre ++ "/" ++ rest).data = pre.data ++ '/' :: rest.data := by
    simp [String.data_append]
  simp [AccountManager.appNameParam, hdata, String.data_append,
    jsReplaceFirst_append '/' ['~', '~'] pre.data rest.data h]

/-- C10 witness: `appNameParam "a/b/c" = "a~~b/c"` — the second slash survives. -/
theorem appNameParam_witness :
    (('/' : Char) ∉ ("a" : String).data) ∧
    AccountManager.appNameParam ("a" ++ "/" ++ "b/c") = "a" ++ "~~" ++ "b/c" :=
  ⟨by decide, appNameParam_replaces_first_slash_only "a" "b/c" (by decide)⟩

/-- C3: evaluation of `isAuthenticated` at the failing input.  When `GET /user`
rejects with a 401 and `throwIfUnauthorized` is unset, the code still propagates the
error instead of resolving `false` (the flag is passed as a dropped third argument to
`RequestManager.get` and there is no try/catch), contradicting the repo's own test
"isAuthenticated handles unsuccessful auth".  The success and explicit-throw cases
behave as claimed. -/
theorem isAuthenticated_propagates_401_even_when_unset :
    AccountManager.isAuthenticated false env401 [] =
      (.error { message := "Unauthorized", statusCode := 401 }, ["GET /user"]) ∧
    (AccountManager.isAuthenticated false env401 []).1 ≠ .ok false ∧
    (AccountManager.isAuthenticated true env401 []).1 =
      .error { message := "Unauthorized", statusCode := 401 } ∧
    AccountManager.isAuthenticated false env0 [] = (.ok true, ["GET /user"]) := by
  refine ⟨rfl, by decide, rfl, rfl⟩

/-- C4 counterexample: `getRenamedApp "new/name" ...` does raise the Conflict (409)
error for the embedded separator, but only AFTER issuing the `GET /apps/{owner}/{app}`
network call — the request log is not empty, so the validation does not short-circuit
before network activity as claimed. -/
theorem getRenamedApp_conflict_after_network_call :
    Adapter.getRenamedApp "new/name" "me" "old" env0 [] =
      (.error { message := Adapter.newNameQualifiedMessage "new/name", statusCode := 409 },
       ["GET /apps/me/old"]) ∧
    (Adapter.getRenamedApp "new/name" "me" "old" env0 []).2 ≠ [] := by
  refine ⟨by decide, by decide⟩

/-- C4 amended: when the new name contains `/`, `getRenamedApp` first issues exactly
one `GET /apps/{owner}/{oldName}` call; if that call succeeds it then raises the
Conflict (409) error, and if it fails the fetch error propagates instead. -/
theorem getRenamedApp_qualified_conflict (newName appOwner oldName : String)
    (env : Backend) (log : List String) (h : jsIncludesChar newName '/' = true) :
    Adapter.getRenamedApp newName appOwner oldName env log =
      ((match env.appResult with
        | .error e => .error e
        | .ok _ => .error { message := Adapter.newNameQualifiedMessage newName,
                            statusCode := RequestManager.ERROR_CONFLICT }),
       log ++ ["GET /apps/" ++ appOwner ++ "/" ++ oldName]) := by
  unfold Adapter.getRenamedApp Adapter.getApp
  cases env.appResult with
  | error e => rfl
  | ok app => simp [h]

/-- C4 witness: the amended statement instantiated at a concrete qualified name. -/
theorem getRenamedApp_qualified_witness :
    jsIncludesChar "new/name" '/' = true ∧
    Adapter.getRenamedApp "new/name" "me" "old2" env0 [] =
      ((match env0.appResult with
        | .error e => .error e
        | .ok _ => .error { message := Adapter.newNameQualifiedMessage "new/name",
                            statusCode := RequestManager.ERROR_CONFLICT }),
       [] ++ ["GET /apps/" ++ "me" ++ "/" ++ "old2"]) :=
  ⟨by decide, getRenamedApp_qualified_conflict "new/name" "me" "old2" env0 [] (by decide)⟩

/-- C1 counterexample: on the qualified identifier `"a/b/c"` the resolver issues the
`GET /user` network call (the log is not empty, refuting "zero network calls"), and
`appName` is only the second segment `"b"`, not the remainder `"b/c"` after the first
separator (destructuring of `split("/")` drops everything after a second separator). -/
theorem parseApiAppName_issues_lookup_and_drops_tail :
    Adapter.parseApiAppName "a/b/c" env0 [] =
      (.ok { appOwner := "a", appName := "b" }, ["GET /user"]) ∧
    ({ appOwner := "a", appName := "b" } : AppParams).appName ≠ "b/c" ∧
    (["GET /user"] : List String) ≠ ([] : List String) := by
  refine ⟨by decide, by decide, by decide⟩

/-- C1 amended: for every qualified identifier `pre ++ "/" ++ rest` (no `/` in `pre`),
`parseApiAppName` always issues exactly one `GET /user` call first (even though its
result is unused on this path); if the lookup fails that error propagates, and
otherwise the identifier is split at the separator with `appOwner = pre` and
`appName` the portion of `rest` before the NEXT separator (not the whole remainder). -/
theorem parseApiAppName_qualified_splits_after_user_lookup (pre rest : String)
    (env : Backend) (log : List String) (hpre : ('/' : Char) ∉ pre.data) :
    Adapter.parseApiAppName (pre ++ "/" ++ rest) env log =
      (env.userResult.map (fun _ =>
        ({ appOwner := pre,
           appName := String.mk (rest.data.takeWhile (fun c => c != '/')) } : AppParams)),
       log ++ ["GET /user"]) := by
  have hdata : (pre ++ "/" ++ rest).data = pre.data ++ '/' :: rest.data := by
    simp [String.data_append]
  have hinc : jsIncludesChar (pre ++ "/" ++ rest) '/' = true := by
    rw [jsIncludesChar, hdata]
    exact List.elem_eq_true_of_mem (by simp)
  have hsplit : jsSplitStr '/' (pre ++ "/" ++ rest) =
      pre :: (jsSplit '/' rest.data).map String.mk := by
    simp only [jsSplitStr, hdata, jsSplit_cons_of_not_mem '/' pre.data rest.data hpre,
      List.map_cons]
  cases hs : jsSplit '/' rest.data with
  | nil => exact absurd hs (jsSplit_ne_nil '/' rest.data)
  | cons seg segs =>
    have hseg : seg = rest.data.takeWhile (fun c => c != '/') := by
      have hh := jsSplit_headD '/' rest.data
      rw [hs] at hh
      simpa using hh
    cases henv : env.userResult with
    | error e => simp [Adapter.parseApiAppName, Adapter.getUser, henv, Except.map]
    | ok u =>
      simp [Adapter.parseApiAppName, Adapter.getUser, henv, Except.map, hinc, hsplit, hs,
        hseg]

/-- C1 witness: the amended statement instantiated at `"owner" ++ "/" ++ "app"`. -/
theorem parseApiAppName_qualified_witness :
    (('/' : Char) ∉ ("owner" : String).data) ∧
    Adapter.parseApiAppName ("owner" ++ "/" ++ "app") env0 [] =
      (env0.userResult.map (fun _ =>
        ({ appOwner := "owner",
           appName := String.mk (("app" : String).data.takeWhile (fun c => c != '/')) } :
          AppParams)),
       [] ++ ["GET /user"]) :=
  ⟨by decide, parseApiAppName_qualified_splits_after_user_lookup "owner" "app" env0 []
    (by decide)⟩

/-- Fixture: a backend app whose display name differs from its name. -/
def appDiffName : BackendApp :=
  { name := "a", display_name := "b", owner := { id := "u1", name := "o1" },
    os := "iOS", platform := "Cordova" }

/-- C5 counterexample: when display_name (`"b"`) differs from name (`"a"`), the
suffix carries TWO spaces before the parenthesis — the mapped name is `"a  (b)"`,
not `"a (b)"` as the claimed single-space suffix would give. -/
theorem toLegacyRestApp_suffix_two_spaces :
    (Adapter.toLegacyRestApp appDiffName userX []).name = "a  (b)" ∧
    (Adapter.toLegacyRestApp appDiffName userX []).name ≠ "a (b)" := by
  refine ⟨by decide, by decide⟩

/-- C5 amended: the mapped name is the backend name, prefixed with `owner/` exactly
when the current user is not the owner, followed by the suffix
`"  (display_name)"` — two spaces — exactly when display_name differs from name; the
collaborator map is the single Owner entry keyed by the owner name; and the concrete
end-to-end scenario (owner is the caller, display name equal) yields `"app1"` with
collaborators `{owner1: {isCurrentAccount: true, permission: "Owner"}}`. -/
theorem toLegacyRestApp_name_and_collaborators (app : BackendApp) (user : UserProfile)
    (deployments : List String) :
    (Adapter.toLegacyRestApp app user deployments).name =
      (if user.id == app.owner.id then app.name else app.owner.name ++ "/" ++ app.name) ++
      (if app.name == app.display_name then "" else "  (" ++ app.display_name ++ ")") ∧
    (Adapter.toLegacyRestApp app user deployments).collaborators =
      [(app.owner.name,
        { isCurrentAccount := user.id == app.owner.id, permission := "Owner" })] ∧
    (Adapter.toLegacyRestApp app user deployments).deployments = deployments ∧
    Adapter.toLegacyRestApp
      { name := "app1", display_name := "app1", owner := { id := "u1", name := "owner1" },
        os := "iOS", platform := "React-Native" }
      { id := "u1", name := "owner1", email := "owner1@example.com" } ["Staging"] =
      { name := "app1",
        collaborators := [("owner1", { isCurrentAccount := true, permission := "Owner" })],
        deployments := ["Staging"], os := "iOS", platform := "React-Native" } := by
  refine ⟨?_, rfl, rfl, by decide⟩
  simp only [Adapter.toLegacyRestApp]
  cases h1 : (user.id == app.owner.id) <;> cases h2 : (app.name == app.display_name) <;>
    simp [h1, h2, string_append_empty, string_append_assoc]

/-- Fixture: a backend release whose `rollout` field is absent. -/
def releaseNoRollout : CodePushRelease :=
  { target_binary_range := some "1.0.0", blob_url := "https://blob.example/pkg", size := 10,
    upload_time := 1000, is_disabled := none, is_mandatory := some true,
    description := none, label := some "v1", package_hash := some "hash1",
    rollout := none, diff_package_map := none, original_label := none,
    original_deployment := none, released_by := none, release_method := none }

/-- Fixture: the same backend release with `rollout: 42`. -/
def release42 : CodePushRelease := { releaseNoRollout with rollout := some 42 }

/-- C2 counterexample: for a backend release with `rollout` undefined, the mapped
package's `rollout` is absent (`none`), NOT 100 — `releaseToPackage` never defaults
the rollout. -/
theorem releaseToPackage_no_rollout_not_100 :
    Adapter.releaseFromBackend (some releaseNoRollout) =
      some (Adapter.releaseToPackage releaseNoRollout) ∧
    (Adapter.releaseToPackage releaseNoRollout).rollout = none ∧
    (Adapter.releaseToPackage releaseNoRollout).rollout ≠ some 100 := by
  refine ⟨by decide, by decide, by decide⟩

/-- C2 amended: a null backend release maps to null (and `toLegacyRestDeployment`
agrees with that null guard); for a non-null release, `rollout` is left absent when
the backend field is undefined/null (or 0, which is falsy), and equals the backend
value when present and nonzero (e.g. 42 maps to 42). -/
theorem releaseFromBackend_null_and_rollout (r : CodePushRelease) (d : BackendDeployment) :
    Adapter.releaseFromBackend none = none ∧
    Adapter.releaseFromBackend (some r) = some (Adapter.releaseToPackage r) ∧
    (Adapter.toLegacyRestDeployment d).package = Adapter.releaseFromBackend d.latest_release ∧
    (r.rollout = none → (Adapter.releaseToPackage r).rollout = none) ∧
    (∀ v : Int, r.rollout = some v → v ≠ 0 → (Adapter.releaseToPackage r).rollout = some v) := by
  refine ⟨rfl, rfl, ?_, ?_, ?_⟩
  · rcases d with ⟨n, k, lr⟩
    cases lr <;> rfl
  · intro h
    simp [Adapter.releaseToPackage, Adapter.keepInt, Adapter.truthyInt, h]
  · intro v hv hnz
    simp [Adapter.releaseToPackage, Adapter.keepInt, Adapter.truthyInt, hv, hnz]

/-- C2 witness: the amended statement at `rollout: 42` (nonzero) keeps 42. -/
theorem releaseFromBackend_rollout_witness :
    (release42.rollout = some 42) ∧ ((42 : Int) ≠ 0) ∧
    (Adapter.releaseToPackage release42).rollout = some 42 :=
  ⟨rfl, by decide,
    (releaseFromBackend_null_and_rollout release42
      { name := "d", key := "k", latest_release := none }).2.2.2.2 42 rfl (by decide)⟩

theorem accessKeyLe_trans (a b c : AccessKey) (h1 : Adapter.accessKeyLe a b = true)
    (h2 : Adapter.accessKeyLe b c = true) : Adapter.accessKeyLe a c = true := by
  simp only [Adapter.accessKeyLe, decide_eq_true_eq] at h1 h2 ⊢
  exact le_trans h1 h2

theorem accessKeyLe_total (a b : AccessKey) :
    (Adapter.accessKeyLe a b || Adapter.accessKeyLe b a) = true := by
  simp only [Adapter.accessKeyLe, Bool.or_eq_true, decide_eq_true_eq]
  exact le_total _ _

theorem deploymentLe_trans (a b c : BackendDeployment) (h1 : Adapter.deploymentLe a b = true)
    (h2 : Adapter.deploymentLe b c = true) : Adapter.deploymentLe a c = true :=
  charListLe_trans a.name.data b.name.data c.name.data h1 h2

theorem deploymentLe_total (a b : BackendDeployment) :
    (Adapter.deploymentLe a b || Adapter.deploymentLe b a) = true :=
  charListLe_total a.name.data b.name.data

/-- C6: for every `Date.parse` behavior and every input token list (hence any
permutation of it), `toLegacyAccessKeyList` returns exactly the per-token mapped
`AccessKey`s (as a permutation — "the corresponding list"), sorted ascending by
`createdTime` with a missing/unparseable time counting as 0 (`sortKey`), and no
entry carries the `key` secret field. -/
theorem toLegacyAccessKeyList_sorted_perm_no_key (dateParse : String → Option Int)
    (apiTokens : List ApiTokensGetResponse) :
    List.Pairwise (fun a b => Adapter.sortKey a ≤ Adapter.sortKey b)
      (Adapter.toLegacyAccessKeyList dateParse apiTokens) ∧
    (Adapter.toLegacyAccessKeyList dateParse apiTokens).Perm
      (apiTokens.map (Adapter.accessKeyOfToken dateParse)) ∧
    (Adapter.toLegacyAccessKeyList dateParse apiTokens).all (fun k => k.key.isNone) = true := by
  have hperm : (Adapter.toLegacyAccessKeyList dateParse apiTokens).Perm
      (apiTokens.map (Adapter.accessKeyOfToken dateParse)) :=
    List.mergeSort_perm (apiTokens.map (Adapter.accessKeyOfToken dateParse))
      Adapter.accessKeyLe
  refine ⟨?_, hperm, ?_⟩
  · have h := @List.sorted_mergeSort AccessKey Adapter.accessKeyLe
      (fun a b c hab hbc => accessKeyLe_trans a b c hab hbc)
      (fun a b => accessKeyLe_total a b)
      (apiTokens.map (Adapter.accessKeyOfToken dateParse))
    refine h.imp ?_
    intro a b hab
    simp only [Adapter.accessKeyLe, decide_eq_true_eq] at hab
    exact hab
  · rw [List.all_eq_true]
    intro k hk
    have hk2 : k ∈ apiTokens.map (Adapter.accessKeyOfToken dateParse) := hperm.subset hk
    obtain ⟨t, _, rfl⟩ := List.mem_map.mp hk2
    rfl

/-- C7: for every input list of backend deployments (hence regardless of input
order), `toLegacyDeployments` returns exactly the mapped client deployments (as a
permutation) sorted ascending by name in lexicographic order. -/
theorem toLegacyDeployments_sorted_perm (deployments : List BackendDeployment) :
    List.Pairwise (fun a b : Deployment => charListLe a.name.data b.name.data = true)
      (Adapter.toLegacyDeployments deployments) ∧
    (Adapter.toLegacyDeployments deployments).Perm
      (deployments.map Adapter.toLegacyRestDeployment) := by
  constructor
  · have h := @List.sorted_mergeSort BackendDeployment Adapter.deploymentLe
      (fun a b c hab hbc => deploymentLe_trans a b c hab hbc)
      (fun a b => deploymentLe_total a b)
      deployments
    rw [Adapter.toLegacyDeployments, List.pairwise_map]
    exact h.imp (fun hab => hab)
  · exact (List.mergeSort_perm deployments Adapter.deploymentLe).map
      Adapter.toLegacyRestDeployment

/-- C8: `toApigatewayAppCreationRequest` raises a Conflict-class (409) error whenever
the os is outside {iOS, Android, Windows, Linux}, the platform is outside
{React-Native, Cordova, Electron}, or the derived display name fails the
`^[A-Za-z0-9._-]+$` pattern / 1-1000 length bound; and the concrete valid request
`{name: "valid-name_1.2", os: "iOS", platform: "Cordova"}` succeeds with
`display_name` equal to the given name (and no org). -/
theorem toApigatewayAppCreationRequest_validates :
    (∀ appToCreate : AppCreationRequest,
        (Adapter.osValid appToCreate = false ∨ Adapter.platformValid appToCreate = false ∨
         Adapter.isValidAppCenterAppName
           (Adapter.toAppcenterClientApp appToCreate).display_name = false) →
        errStatus (Adapter.toApigatewayAppCreationRequest appToCreate) = some 409) ∧
    Adapter.toApigatewayAppCreationRequest
      { name := "valid-name_1.2", os := "iOS", platform := "Cordova",
        manuallyProvisionDeployments := false } =
      .ok { org := none,
            appcenterClientApp :=
              { os := "iOS", platform := "Cordova", display_name := "valid-name_1.2" } } := by
  constructor
  · intro r h
    unfold Adapter.toApigatewayAppCreationRequest
    rcases h with h | h | h
    · simp [h, errStatus, RequestManager.ERROR_CONFLICT]
    · cases hos : Adapter.osValid r
      · simp [hos, errStatus, RequestManager.ERROR_CONFLICT]
      · simp [hos, h, errStatus, RequestManager.ERROR_CONFLICT]
    · cases hos : Adapter.osValid r
      · simp [hos, errStatus, RequestManager.ERROR_CONFLICT]
      · cases hplat : Adapter.platformValid r
        · simp [hos, hplat, errStatus, RequestManager.ERROR_CONFLICT]
        · simp [hos, hplat, h, errStatus, RequestManager.ERROR_CONFLICT]
  · decide

/-- Fixture: an app-creation request with an invalid os (the spec's PalmOS example). -/
def palmReq : AppCreationRequest :=
  { name := "someApp", os := "PalmOS", platform := "Cordova",
    manuallyProvisionDeployments := false }

/-- C8 witness: `buildAppCreationRequest({os: "PalmOS", ...})` raises Conflict (409). -/
theorem toApigatewayAppCreationRequest_witness :
    Adapter.osValid palmReq = false ∧
    errStatus (Adapter.toApigatewayAppCreationRequest palmReq) = some 409 :=
  ⟨by decide, toApigatewayAppCreationRequest_validates.1 palmReq (Or.inl (by decide))⟩
